import Mathlib

/-!
Verification of the Bananacraft build-plan executor
(`src/AI_Carpenter_Bot/index.js`).

The script is a linear procedure: parse command-line arguments, load a JSON
plan file, connect a game-client agent, resolve a spatial origin (explicit
coordinates or the nearest player's floored position), then walk the
instruction list in order, issuing reposition / look / `/setblock ... replace`
commands with fixed tick delays.

We embed the script shallowly as a pure function from its inputs (arguments,
plan contents, and an environment abstracting the external game world) to the
ordered trace of commands and observable effects it issues.  External
behaviours the script only consumes — `parseFloat`, the nearest-player query,
and the agent's current position (which the world updates between commands) —
are fields of the environment; the agent position is an oracle from the trace
issued so far to a position, so that it may respond to teleport commands in
any way the external world pleases.

Coordinates are rationals: JavaScript numbers in this script hold command-line
floats, JSON numbers and block positions, and no claim depends on IEEE-754
rounding.  The source's Euclidean `distanceTo(p) > 4` test is embedded as the
equivalent squared comparison `distSq > 16` (both sides are non-negative).
-/

namespace Bananacraft

/-- 3-component vector of world coordinates, as in the `vec3` package. -/
structure Vec3 where
  x : ℚ
  y : ℚ
  z : ℚ
deriving Repr, DecidableEq

/-- `Vec3.prototype.offset(dx, dy, dz)`: componentwise translation. -/
def Vec3.offset (v : Vec3) (dx dy dz : ℚ) : Vec3 :=
  ⟨v.x + dx, v.y + dy, v.z + dz⟩

/-- `Vec3.prototype.floored()`: floor each component to an integer. -/
def Vec3.floored (v : Vec3) : Vec3 :=
  ⟨(⌊v.x⌋ : ℤ), (⌊v.y⌋ : ℤ), (⌊v.z⌋ : ℤ)⟩

/-- Squared Euclidean distance.  The source compares
`a.distanceTo(b) > 4`; we compare `distSq a b > 16`, which is equivalent. -/
def Vec3.distSq (a b : Vec3) : ℚ :=
  (a.x - b.x) ^ 2 + (a.y - b.y) ^ 2 + (a.z - b.z) ^ 2

/-- One entry of the plan file's `instructions` list:
`{ x, y, z, action, block }`. -/
structure Instruction where
  x : ℚ
  y : ℚ
  z : ℚ
  action : String
  block : String
deriving Repr, DecidableEq

/-- One observable effect issued by the script, in issue order.  Chat
commands that the source builds by string interpolation are kept structured
(the interpolated data as fields), so each constructor corresponds to one
emission site of `index.js`. -/
inductive Event where
  /-- `bot.chat(msg)` of a fixed text (messages and `/gamemode creative`). -/
  | chat (msg : String)
  /-- `console.log(msg)` of a fixed text. -/
  | log (msg : String)
  /-- `console.log` of a text followed by an origin vector. -/
  | logOrigin (msg : String) (origin : Vec3)
  /-- `bot.chat` of a text followed by an origin vector. -/
  | chatOrigin (msg : String) (origin : Vec3)
  /-- `bot.chat("/tp @s x y z")`: reposition the agent to `pos`. -/
  | tpSelf (pos : Vec3)
  /-- `bot.chat("/tp @s username")`: reposition the agent to a player. -/
  | tpToPlayer (username : String)
  /-- `bot.creative.startFlying()`. -/
  | startFlying
  /-- `await bot.waitForTicks(n)`. -/
  | waitTicks (n : Nat)
  /-- `await bot.lookAt(pos)`. -/
  | lookAt (pos : Vec3)
  /-- `bot.chat("/setblock x y z <block> <mode>")`; the source always
  passes mode `"replace"`. -/
  | setblock (pos : Vec3) (block : String) (mode : String)
  /-- `console.log("[count/total] /setblock ...")` progress line. -/
  | logProgress (count : Nat) (total : Nat) (pos : Vec3) (block : String)
  /-- `bot.quit()`. -/
  | quit
deriving Repr, DecidableEq

/-- A player entity as read from the agent library. -/
structure Player where
  username : String
  position : Vec3
deriving Repr, DecidableEq

/-- The external world the script reads from: the optional origin arguments
`process.argv[3..5]`, the JavaScript `parseFloat` builtin (abstract), the
result of `bot.nearestEntity(e => e.type === 'player')`, and
`bot.entity.position` — an oracle giving the agent's position as a function
of the events issued so far, since the world moves the agent in response to
teleport commands. -/
structure Env where
  argX : Option String
  argY : Option String
  argZ : Option String
  parseFloat : String → ℚ
  nearestPlayer : Option Player
  botPos : List Event → Vec3

/-- JavaScript truthiness of an optional string argument: `undefined` and
the empty string are falsy, every other string is truthy. -/
def truthy : Option String → Bool
  | none => false
  | some s => s != ""

/-- `action === 'setblock' || action === 'place'`. -/
def recognizedAction (a : String) : Bool :=
  a == "setblock" || a == "place"

/-- Origin resolution (`executePlan`, first half): returns the events it
emits and the origin, `none` when no coordinates were supplied and no player
is found (the source `return`s early in that case). -/
def resolveOrigin (env : Env) : List Event × Option Vec3 :=
  if truthy env.argX && truthy env.argY && truthy env.argZ then
    let origin : Vec3 :=
      ⟨env.parseFloat (env.argX.getD ""), env.parseFloat (env.argY.getD ""),
        env.parseFloat (env.argZ.getD "")⟩
    ([Event.logOrigin "Using provided origin: " origin,
      Event.chatOrigin "指定座標を作業原点とします: " origin,
      Event.tpSelf ⟨origin.x, origin.y + 5, origin.z⟩,
      Event.waitTicks 20,
      Event.startFlying,
      Event.waitTicks 40], some origin)
  else
    match env.nearestPlayer with
    | none =>
      ([Event.log "No player found and no coordinates provided.",
        Event.chat "座標指定がなく、プレイヤーも見つかりません。"], none)
    | some target =>
      let origin := target.position.floored
      ([Event.log ("Syncing origin with player: " ++ target.username),
        Event.tpToPlayer target.username,
        Event.waitTicks 40,
        Event.startFlying,
        Event.logOrigin "Origin set to: " origin,
        Event.chatOrigin "プレイヤー位置を原点としました: " origin], some origin)

/-- Body of the `for (const instr of instructions)` loop for one instruction,
given the agent position read at its start.  `count` is the 1-based index of
this instruction and `total` the plan length. -/
def instrEvents (origin botPosNow : Vec3) (count total : Nat)
    (instr : Instruction) : List Event :=
  let targetPos := origin.offset instr.x instr.y instr.z
  (if recognizedAction instr.action then
    (if Vec3.distSq botPosNow targetPos > 16 then
      [Event.tpSelf (targetPos.offset 0 2 0), Event.waitTicks 20]
    else []) ++
    [Event.lookAt targetPos,
     Event.setblock targetPos instr.block "replace"] ++
    (if count % 5 = 0 ∨ count = 1 ∨ count = total then
      [Event.logProgress count total targetPos instr.block]
    else [])
  else []) ++ [Event.waitTicks 5]

/-- The instruction loop: threads the accumulated trace so the position
oracle sees every command issued so far. -/
def execLoop (botPos : List Event → Vec3) (origin : Vec3) (total : Nat) :
    Nat → List Instruction → List Event → List Event
  | _, [], acc => acc
  | count, instr :: rest, acc =>
    execLoop botPos origin total (count + 1) rest
      (acc ++ instrEvents origin (botPos acc) (count + 1) total instr)

/-- The whole `executePlan` function: start message, origin resolution
(early return when it fails), the instruction loop, final settle delay,
completion message and disconnect. -/
def executePlan (env : Env) (instructions : List Instruction) : List Event :=
  let acc0 := [Event.chat "作業を開始します...🔨"]
  match resolveOrigin env with
  | (evs, none) => acc0 ++ evs
  | (evs, some origin) =>
    execLoop env.botPos origin instructions.length 0 instructions (acc0 ++ evs)
      ++ [Event.waitTicks 4, Event.chat "装飾完了しました！✨", Event.quit]

/-- The `spawn` handler: `/gamemode creative`, a settle wait, then the plan. -/
def spawnTrace (env : Env) (instructions : List Instruction) : List Event :=
  [Event.chat "/gamemode creative", Event.waitTicks 20]
    ++ executePlan env instructions

/-- Startup inputs: `process.argv[2]` and what the filesystem and plan file
hold. `planInstructions` is the plan's top-level `instructions` field,
`none` when the parsed JSON lacks it. -/
structure Startup where
  projectName : Option String
  fileExists : Bool
  planInstructions : Option (List Instruction)

/-- Result of one whole run: the process exit code (the source calls
`process.exit(1)` only for a missing project name or a missing plan file;
every other run ends with Node's default status 0), whether
`mineflayer.createBot` was reached, and the trace issued after spawn. -/
structure RunResult where
  exitCode : Nat
  connected : Bool
  trace : List Event
deriving Repr, DecidableEq

/-- The top-level script: argument check, file-existence check
(`fs.existsSync`), `plan.instructions || []`, then connect and run. -/
def run (s : Startup) (env : Env) : RunResult :=
  if truthy s.projectName = false then
    ⟨1, false, []⟩
  else if s.fileExists = false then
    ⟨1, false, []⟩
  else
    ⟨0, true, spawnTrace env (s.planInstructions.getD [])⟩

/-- Is this event a placement command (`/setblock ...`)? -/
def isSetblockEvent : Event → Bool
  | .setblock _ _ _ => true
  | _ => false

/-- The subsequence of placement commands of a trace. -/
def placements (tr : List Event) : List Event :=
  tr.filter isSetblockEvent

/-- Is this event a reposition command (`/tp @s x y z`)? -/
def isTpSelfEvent : Event → Bool
  | .tpSelf _ => true
  | _ => false

/-- The 1-based instruction indices at which a progress line was logged. -/
def progressCounts (tr : List Event) : List Nat :=
  tr.filterMap fun e =>
    match e with
    | .logProgress c _ _ _ => some c
    | _ => none

/-- The spec's description of the placement a single instruction should
yield: one `/setblock` at `origin + offset` with the instruction's block
string and the `replace` modifier when the action is recognized, nothing
otherwise. -/
def plannedPlacement (origin : Vec3) (i : Instruction) : Option Event :=
  if recognizedAction i.action then
    some (Event.setblock (origin.offset i.x i.y i.z) i.block "replace")
  else none

/-- The spec's placement-command sequence for a plan and an origin: one
command per recognized instruction, in original list order. -/
def plannedPlacements (origin : Vec3) (instrs : List Instruction) : List Event :=
  instrs.filterMap (plannedPlacement origin)

/-- The 1-based indices at which the source logs a progress line, starting
the count at `count`: a recognized instruction at 1-based index `c` logs
exactly when `c % 5 = 0 ∨ c = 1 ∨ c = total`; an unrecognized one never
logs (the log sits inside the recognized-action branch). -/
def plannedProgress (total : Nat) : Nat → List Instruction → List Nat
  | _, [] => []
  | count, i :: rest =>
    (if recognizedAction i.action then
      (if (count + 1) % 5 = 0 ∨ count + 1 = 1 ∨ count + 1 = total then
        [count + 1]
      else [])
    else []) ++ plannedProgress total (count + 1) rest

/-! ### Trace decomposition lemmas -/

lemma placements_append (a b : List Event) :
    placements (a ++ b) = placements a ++ placements b :=
  List.filter_append ..

lemma progressCounts_append (a b : List Event) :
    progressCounts (a ++ b) = progressCounts a ++ progressCounts b :=
  List.filterMap_append ..

lemma placements_instrEvents (origin botPosNow : Vec3) (count total : Nat)
    (instr : Instruction) :
    placements (instrEvents origin botPosNow count total instr)
      = (plannedPlacement origin instr).toList := by
  unfold instrEvents plannedPlacement
  by_cases hrec : recognizedAction instr.action
  · simp only [hrec, if_true]
    by_cases hfar : Vec3.distSq botPosNow (origin.offset instr.x instr.y instr.z) > 16
      <;> by_cases hlog : count % 5 = 0 ∨ count = 1 ∨ count = total
      <;> simp [hfar, hlog, placements, isSetblockEvent]
  · simp [hrec, placements, isSetblockEvent]

lemma progressCounts_instrEvents (origin botPosNow : Vec3) (count total : Nat)
    (instr : Instruction) :
    progressCounts (instrEvents origin botPosNow count total instr)
      = if recognizedAction instr.action then
          (if count % 5 = 0 ∨ count = 1 ∨ count = total then [count] else [])
        else [] := by
  unfold instrEvents
  by_cases hrec : recognizedAction instr.action
  · simp only [hrec, if_true]
    by_cases hfar : Vec3.distSq botPosNow (origin.offset instr.x instr.y instr.z) > 16
      <;> by_cases hlog : count % 5 = 0 ∨ count = 1 ∨ count = total
      <;> simp [hfar, hlog, progressCounts]
  · simp [hrec, progressCounts]

/-- The placement subtrace of the loop is the planned sequence, whatever the
position oracle answers. -/
lemma placements_execLoop (botPos : List Event → Vec3) (origin : Vec3)
    (total : Nat) :
    ∀ (instrs : List Instruction) (count : Nat) (acc : List Event),
      placements (execLoop botPos origin total count instrs acc)
        = placements acc ++ plannedPlacements origin instrs := by
  intro instrs
  induction instrs with
  | nil => intro count acc; simp [execLoop, plannedPlacements]
  | cons i rest ih =>
    intro count acc
    rw [execLoop, ih, placements_append, placements_instrEvents]
    simp only [plannedPlacements, List.filterMap_cons]
    by_cases hrec : recognizedAction i.action
      <;> simp [hrec, plannedPlacement, Option.toList]

/-- The progress-log indices of the loop are the planned ones, whatever the
position oracle answers. -/
lemma progressCounts_execLoop (botPos : List Event → Vec3) (origin : Vec3)
    (total : Nat) :
    ∀ (instrs : List Instruction) (count : Nat) (acc : List Event),
      progressCounts (execLoop botPos origin total count instrs acc)
        = progressCounts acc ++ plannedProgress total count instrs := by
  intro instrs
  induction instrs with
  | nil => intro count acc; simp [execLoop, plannedProgress]
  | cons i rest ih =>
    intro count acc
    rw [execLoop, ih, progressCounts_append, progressCounts_instrEvents]
    rw [plannedProgress, List.append_assoc]

lemma placements_resolveOrigin (env : Env) :
    placements (resolveOrigin env).1 = [] := by
  unfold resolveOrigin
  by_cases h : (truthy env.argX && truthy env.argY && truthy env.argZ) = true
  · simp [h, placements, isSetblockEvent]
  · cases hp : env.nearestPlayer <;> simp [h, hp, placements, isSetblockEvent]

lemma progressCounts_resolveOrigin (env : Env) :
    progressCounts (resolveOrigin env).1 = [] := by
  unfold resolveOrigin
  by_cases h : (truthy env.argX && truthy env.argY && truthy env.argZ) = true
  · simp [h, progressCounts]
  · cases hp : env.nearestPlayer <;> simp [h, hp, progressCounts]

lemma executePlan_resolved (env : Env) (instrs : List Instruction)
    (evs : List Event) (origin : Vec3)
    (h : resolveOrigin env = (evs, some origin)) :
    executePlan env instrs =
      execLoop env.botPos origin instrs.length 0 instrs
        (Event.chat "作業を開始します...🔨" :: evs)
      ++ [Event.waitTicks 4, Event.chat "装飾完了しました！✨", Event.quit] := by
  unfold executePlan
  rw [h]
  simp

lemma executePlan_unresolved (env : Env) (instrs : List Instruction)
    (evs : List Event) (h : resolveOrigin env = (evs, none)) :
    executePlan env instrs = Event.chat "作業を開始します...🔨" :: evs := by
  unfold executePlan
  rw [h]
  simp

lemma placements_executePlan (env : Env) (instrs : List Instruction)
    (origin : Vec3) (h : (resolveOrigin env).2 = some origin) :
    placements (executePlan env instrs) = plannedPlacements origin instrs := by
  rcases hp : resolveOrigin env with ⟨evs, oo⟩
  rw [hp] at h
  simp only at h
  subst h
  rw [executePlan_resolved env instrs evs origin hp, placements_append,
    placements_execLoop]
  have h1 : placements (Event.chat "作業を開始します...🔨" :: evs) = [] := by
    have := placements_resolveOrigin env
    rw [hp] at this
    simp only at this
    simp [placements, isSetblockEvent, List.filter] at this ⊢
    exact this
  rw [h1]
  simp [placements, isSetblockEvent]

lemma progressCounts_executePlan (env : Env) (instrs : List Instruction)
    (origin : Vec3) (h : (resolveOrigin env).2 = some origin) :
    progressCounts (executePlan env instrs)
      = plannedProgress instrs.length 0 instrs := by
  rcases hp : resolveOrigin env with ⟨evs, oo⟩
  rw [hp] at h
  simp only at h
  subst h
  rw [executePlan_resolved env instrs evs origin hp, progressCounts_append,
    progressCounts_execLoop]
  have h1 : progressCounts (Event.chat "作業を開始します...🔨" :: evs) = [] := by
    have := progressCounts_resolveOrigin env
    rw [hp] at this
    simp only at this
    simp [progressCounts] at this ⊢
    exact this
  rw [h1]
  simp [progressCounts]

/-- When every action is recognized, the progress indices are the 1-based
positions satisfying the log condition. -/
lemma plannedProgress_all_recognized (total : Nat) :
    ∀ (instrs : List Instruction) (count : Nat),
      (∀ i ∈ instrs, recognizedAction i.action = true) →
      plannedProgress total count instrs
        = (List.range' (count + 1) instrs.length).filter
            (fun c => decide (c % 5 = 0 ∨ c = 1 ∨ c = total)) := by
  intro instrs
  induction instrs with
  | nil => intro count _; simp [plannedProgress]
  | cons i rest ih =>
    intro count hall
    have hi : recognizedAction i.action = true := hall i (by simp)
    rw [plannedProgress, ih (count + 1) (fun j hj => hall j (by simp [hj]))]
    rw [List.length_cons, List.range'_succ, List.filter_cons]
    simp only [hi, if_true]
    by_cases hc : (count + 1) % 5 = 0 ∨ count + 1 = 1 ∨ count + 1 = total
    · have hb : decide ((count + 1) % 5 = 0 ∨ count + 1 = 1 ∨ count + 1 = total)
          = true := decide_eq_true hc
      rw [if_pos hc, if_pos hb, List.singleton_append]
    · have hb : decide ((count + 1) % 5 = 0 ∨ count + 1 = 1 ∨ count + 1 = total)
          = false := decide_eq_false hc
      rw [if_neg hc, if_neg (ne_true_of_eq_false hb), List.nil_append]

/-- Every planned placement command carries the `replace` modifier. -/
lemma plannedPlacements_replace (origin : Vec3) :
    ∀ (instrs : List Instruction) (e : Event),
      e ∈ plannedPlacements origin instrs → ∃ p b, e = Event.setblock p b "replace" := by
  intro instrs
  induction instrs with
  | nil => intro e he; simp [plannedPlacements] at he
  | cons i rest ih =>
    intro e he
    rw [plannedPlacements, List.filterMap_cons] at he
    by_cases hrec : recognizedAction i.action
    · simp only [plannedPlacement, hrec, if_true, List.mem_cons] at he
      rcases he with he | he
      · exact ⟨_, _, he⟩
      · exact ih e he
    · simp only [plannedPlacement, hrec, if_false, Bool.false_eq_true] at he
      exact ih e he

/-! ### Concrete inputs used by witnesses and counterexamples -/

/-- An environment with explicit origin arguments `"10" "64" "10"`, a
`parseFloat` answering those strings, and the agent pinned at the origin. -/
def envExplicit : Env where
  argX := some "10"
  argY := some "64"
  argZ := some "10"
  parseFloat := fun s => if s == "10" then 10 else if s == "64" then 64 else 0
  nearestPlayer := some ⟨"steve", ⟨3, 70, 3⟩⟩
  botPos := fun _ => ⟨10, 64, 10⟩

/-- Like `envExplicit` but the agent sits 100 units away on every read. -/
def envExplicitFar : Env where
  argX := some "10"
  argY := some "64"
  argZ := some "10"
  parseFloat := fun s => if s == "10" then 10 else if s == "64" then 64 else 0
  nearestPlayer := some ⟨"steve", ⟨3, 70, 3⟩⟩
  botPos := fun _ => ⟨110, 64, 10⟩

/-- No origin arguments, no player in range. -/
def envNoPlayer : Env where
  argX := none
  argY := none
  argZ := none
  parseFloat := fun _ => 0
  nearestPlayer := none
  botPos := fun _ => ⟨0, 0, 0⟩

/-- Only two of the three origin arguments supplied; a player is present. -/
def envPartialArgs : Env where
  argX := some "10"
  argY := none
  argZ := some "5"
  parseFloat := fun _ => 0
  nearestPlayer := some ⟨"alex", ⟨7/2, 70, -3/2⟩⟩
  botPos := fun _ => ⟨3, 72, -2⟩

/-- Explicit fractional origin arguments. -/
def envFrac : Env where
  argX := some "10.5"
  argY := some "64"
  argZ := some "0.25"
  parseFloat := fun s =>
    if s == "10.5" then 21 / 2 else if s == "64" then 64 else 1 / 4
  nearestPlayer := none
  botPos := fun _ => ⟨21 / 2, 64, 1 / 4⟩

/-- A three-instruction plan with an unrecognized action in the middle. -/
def planMixed : List Instruction :=
  [⟨0, 0, 0, "setblock", "stone"⟩,
   ⟨1, 0, 0, "annotation", "start of wall"⟩,
   ⟨0, 1, 0, "place", "oak_planks"⟩]

/-- Twelve instructions whose first entry is an annotation. -/
def planTwelveAnnot : List Instruction :=
  ⟨0, 0, 0, "annotation", "note"⟩ ::
    List.replicate 11 ⟨0, 0, 0, "setblock", "stone"⟩

/-- Twelve recognized instructions. -/
def planTwelve : List Instruction :=
  List.replicate 12 ⟨0, 0, 0, "setblock", "stone"⟩

/-- A startup state with a project name, an existing plan file and an empty
`instructions` list. -/
def startupOk : Startup := ⟨some "house", true, some []⟩

/-- The origin-resolution events of `envExplicit`. -/
def evsExplicit : List Event :=
  [Event.logOrigin "Using provided origin: " ⟨10, 64, 10⟩,
   Event.chatOrigin "指定座標を作業原点とします: " ⟨10, 64, 10⟩,
   Event.tpSelf ⟨10, 69, 10⟩,
   Event.waitTicks 20,
   Event.startFlying,
   Event.waitTicks 40]

/-! ### Claims -/

/-- C1: for every build plan and fixed origin, the placement commands the
executor issues are, in original list order, exactly one
`/setblock x y z <block> replace` per instruction whose action is
`setblock` or `place`, at `origin + offset` with the block string verbatim;
any other action contributes zero placement commands.  (The placement
subtrace of `executePlan` equals the spec-side `plannedPlacements`.) -/
theorem claim_C1_placement_sequence (env : Env) (instrs : List Instruction)
    (origin : Vec3) (h : (resolveOrigin env).2 = some origin) :
    placements (executePlan env instrs) = plannedPlacements origin instrs :=
  placements_executePlan env instrs origin h

theorem claim_C1_witness :
    placements (executePlan envExplicit planMixed)
      = [Event.setblock ⟨10, 64, 10⟩ "stone" "replace",
         Event.setblock ⟨10, 65, 10⟩ "oak_planks" "replace"] := by
  rw [claim_C1_placement_sequence envExplicit planMixed ⟨10, 64, 10⟩ (by decide)]
  norm_num +decide [plannedPlacements, plannedPlacement, recognizedAction,
    planMixed, Vec3.offset, List.filterMap_cons]

/-- C2: for a recognized instruction, when the agent is within distance 4 of
the target (squared distance at most 16) no reposition command is issued;
when it is farther (squared distance above 16) exactly one reposition
command is issued, to the point 2 units above the target, followed by a
20-tick wait, before the placement command. -/
theorem claim_C2_reposition_threshold (origin botPosNow : Vec3)
    (count total : Nat) (instr : Instruction)
    (hrec : recognizedAction instr.action = true) :
    (Vec3.distSq botPosNow (origin.offset instr.x instr.y instr.z) ≤ 16 →
      (instrEvents origin botPosNow count total instr).countP isTpSelfEvent = 0)
    ∧ (16 < Vec3.distSq botPosNow (origin.offset instr.x instr.y instr.z) →
      (instrEvents origin botPosNow count total instr).countP isTpSelfEvent = 1
      ∧ instrEvents origin botPosNow count total instr
        = Event.tpSelf ((origin.offset instr.x instr.y instr.z).offset 0 2 0)
          :: Event.waitTicks 20
          :: Event.lookAt (origin.offset instr.x instr.y instr.z)
          :: Event.setblock (origin.offset instr.x instr.y instr.z)
              instr.block "replace"
          :: ((if count % 5 = 0 ∨ count = 1 ∨ count = total then
                [Event.logProgress count total
                  (origin.offset instr.x instr.y instr.z) instr.block]
              else []) ++ [Event.waitTicks 5])) := by
  simp only [instrEvents, hrec, if_true]
  constructor
  · intro hnear
    rw [if_neg (not_lt.mpr hnear)]
    by_cases hlog : count % 5 = 0 ∨ count = 1 ∨ count = total
      <;> simp [hlog, isTpSelfEvent, List.countP_cons, List.countP_append]
  · intro hfar
    rw [if_pos hfar]
    constructor
    · by_cases hlog : count % 5 = 0 ∨ count = 1 ∨ count = total
        <;> simp [hlog, isTpSelfEvent, List.countP_cons, List.countP_append]
    · simp

theorem claim_C2_witness :
    ((instrEvents ⟨10, 64, 10⟩ ⟨10, 64, 10⟩ 1 1
        ⟨0, 0, 0, "setblock", "stone"⟩).countP isTpSelfEvent = 0)
    ∧ ((instrEvents ⟨10, 64, 10⟩ ⟨110, 64, 10⟩ 2 3
        ⟨0, 0, 0, "setblock", "stone"⟩).countP isTpSelfEvent = 1) := by
  constructor
  · exact (claim_C2_reposition_threshold ⟨10, 64, 10⟩ ⟨10, 64, 10⟩ 1 1
      ⟨0, 0, 0, "setblock", "stone"⟩ (by decide)).1
      (by norm_num [Vec3.distSq, Vec3.offset])
  · exact ((claim_C2_reposition_threshold ⟨10, 64, 10⟩ ⟨110, 64, 10⟩ 2 3
      ⟨0, 0, 0, "setblock", "stone"⟩ (by decide)).2
      (by norm_num [Vec3.distSq, Vec3.offset])).1

/-- C3: with no explicit coordinates and no player found, the run emits zero
placement commands, its trace ends right after the origin-resolution
diagnostics (no completion message, no disconnect), and the process exit
code is 0 — the abort is logged, not signalled as a process failure. -/
theorem claim_C3_no_player_abort (s : Startup) (env : Env)
    (hname : truthy s.projectName = true) (hfile : s.fileExists = true)
    (hargs : (truthy env.argX && truthy env.argY && truthy env.argZ) = false)
    (hplayer : env.nearestPlayer = none) :
    (run s env).exitCode = 0
    ∧ placements (run s env).trace = []
    ∧ (run s env).trace
      = [Event.chat "/gamemode creative", Event.waitTicks 20,
         Event.chat "作業を開始します...🔨",
         Event.log "No player found and no coordinates provided.",
         Event.chat "座標指定がなく、プレイヤーも見つかりません。"] := by
  have hres : resolveOrigin env
      = ([Event.log "No player found and no coordinates provided.",
          Event.chat "座標指定がなく、プレイヤーも見つかりません。"], none) := by
    unfold resolveOrigin
    rw [hargs, hplayer]
    simp
  have hrun : run s env
      = ⟨0, true, spawnTrace env (s.planInstructions.getD [])⟩ := by
    simp [run, hname, hfile]
  have htr := executePlan_unresolved env (s.planInstructions.getD []) _ hres
  rw [hrun]
  simp [spawnTrace, htr, placements, isSetblockEvent]

theorem claim_C3_witness :
    (run startupOk envNoPlayer).exitCode = 0
    ∧ placements (run startupOk envNoPlayer).trace = []
    ∧ (run startupOk envNoPlayer).trace
      = [Event.chat "/gamemode creative", Event.waitTicks 20,
         Event.chat "作業を開始します...🔨",
         Event.log "No player found and no coordinates provided.",
         Event.chat "座標指定がなく、プレイヤーも見つかりません。"] :=
  claim_C3_no_player_abort startupOk envNoPlayer (by decide) (by decide)
    (by decide) rfl

/-- C4: a plan whose `instructions` field is absent or empty loads as an
empty plan (not an error), yields zero placement commands, and the run
completes cleanly: final settle delay, completion message, disconnect. -/
theorem claim_C4_empty_plan (s : Startup) (env : Env) (evs : List Event)
    (origin : Vec3)
    (hname : truthy s.projectName = true) (hfile : s.fileExists = true)
    (hempty : s.planInstructions = none ∨ s.planInstructions = some [])
    (hres : resolveOrigin env = (evs, some origin)) :
    (run s env).exitCode = 0
    ∧ placements (run s env).trace = []
    ∧ (run s env).trace
      = ([Event.chat "/gamemode creative", Event.waitTicks 20,
          Event.chat "作業を開始します...🔨"] ++ evs)
        ++ [Event.waitTicks 4, Event.chat "装飾完了しました！✨", Event.quit] := by
  have hinstr : s.planInstructions.getD [] = [] := by
    rcases hempty with h | h <;> rw [h] <;> rfl
  have hrun : run s env
      = ⟨0, true, spawnTrace env (s.planInstructions.getD [])⟩ := by
    simp [run, hname, hfile]
  have hpl : placements (executePlan env (s.planInstructions.getD [])) = [] := by
    rw [hinstr, placements_executePlan env [] origin (by rw [hres])]
    rfl
  have hplan := executePlan_resolved env [] evs origin hres
  rw [hrun]
  refine ⟨rfl, ?_, ?_⟩
  · simp only [spawnTrace]
    rw [placements_append, hpl]
    simp [placements, isSetblockEvent]
  · simp only [spawnTrace, hinstr, hplan, execLoop]
    simp

theorem claim_C4_witness :
    (run startupOk envExplicit).exitCode = 0
    ∧ placements (run startupOk envExplicit).trace = []
    ∧ (run startupOk envExplicit).trace
      = ([Event.chat "/gamemode creative", Event.waitTicks 20,
          Event.chat "作業を開始します...🔨"] ++ evsExplicit)
        ++ [Event.waitTicks 4, Event.chat "装飾完了しました！✨", Event.quit] :=
  claim_C4_empty_plan startupOk envExplicit evsExplicit ⟨10, 64, 10⟩
    (by decide) (by decide) (Or.inr rfl)
    (by norm_num +decide [resolveOrigin, envExplicit, truthy, evsExplicit])

/-- C5: a missing plan file aborts the process with exit code 1 before any
agent connection and with no placement work, and a missing project name is
likewise a fatal usage error with exit code 1 before any connection.  (The
source prints the diagnostics to standard error before calling
`process.exit(1)`; they precede any connection, so the trace is empty.) -/
theorem claim_C5_fail_fast (s : Startup) (env : Env) :
    (truthy s.projectName = false → run s env = ⟨1, false, []⟩)
    ∧ (s.fileExists = false → run s env = ⟨1, false, []⟩) := by
  constructor
  · intro h
    simp [run, h]
  · intro h
    by_cases hn : truthy s.projectName = false
    · simp [run, hn]
    · simp [run, hn, h]

theorem claim_C5_witness :
    run ⟨none, true, some []⟩ envNoPlayer = ⟨1, false, []⟩
    ∧ run ⟨some "house", false, some []⟩ envNoPlayer = ⟨1, false, []⟩ :=
  ⟨(claim_C5_fail_fast ⟨none, true, some []⟩ envNoPlayer).1 rfl,
   (claim_C5_fail_fast ⟨some "house", false, some []⟩ envNoPlayer).2 rfl⟩

/-- C6, counterexample: a 12-instruction plan whose first entry has the
unrecognized action `"annotation"` logs progress at indices 5, 10 and 12
only — not at index 1 — because the progress log sits inside the
recognized-action branch of the loop.  The claim as stated (every plan of
12 instructions logs at 1, 5, 10 and 12) is therefore false. -/
theorem claim_C6_counterexample :
    progressCounts (executePlan envExplicit planTwelveAnnot) = [5, 10, 12]
    ∧ progressCounts (executePlan envExplicit planTwelveAnnot)
        ≠ [1, 5, 10, 12] := by
  have h : progressCounts (executePlan envExplicit planTwelveAnnot)
      = [5, 10, 12] := by
    norm_num +decide [executePlan, resolveOrigin, envExplicit, planTwelveAnnot,
      truthy, execLoop, instrEvents, recognizedAction, progressCounts,
      Vec3.offset, Vec3.distSq, List.replicate]
  exact ⟨h, by rw [h]; decide⟩

/-- C6, amended: for every plan of 12 instructions all of whose actions are
recognized, a progress line is logged exactly at instruction indices 1, 5,
10 and 12, counting all instructions in list order. -/
theorem claim_C6_amended_progress (env : Env) (instrs : List Instruction)
    (origin : Vec3) (hlen : instrs.length = 12)
    (hrec : ∀ i ∈ instrs, recognizedAction i.action = true)
    (hres : (resolveOrigin env).2 = some origin) :
    progressCounts (executePlan env instrs) = [1, 5, 10, 12] := by
  rw [progressCounts_executePlan env instrs origin hres,
    plannedProgress_all_recognized instrs.length instrs 0 hrec, hlen]
  decide

theorem claim_C6_witness :
    progressCounts (executePlan envExplicit planTwelve) = [1, 5, 10, 12] :=
  claim_C6_amended_progress envExplicit planTwelve ⟨10, 64, 10⟩
    (by decide) (by decide) (by decide)

/-- C7: origin resolution selects exactly one of two strategies — with all
three coordinate arguments truthy, the origin is the three arguments run
through `parseFloat`, with no bounds validation (the statement holds for
every `parseFloat` result); otherwise it is the nearest player's position
floored — and the origin, established before any instruction, is the one
every placement command is relative to. -/
theorem claim_C7_origin_strategies (env : Env) (instrs : List Instruction) :
    ((truthy env.argX && truthy env.argY && truthy env.argZ) = true →
      (resolveOrigin env).2
        = some ⟨env.parseFloat (env.argX.getD ""),
            env.parseFloat (env.argY.getD ""),
            env.parseFloat (env.argZ.getD "")⟩)
    ∧ ((truthy env.argX && truthy env.argY && truthy env.argZ) = false →
      ∀ p, env.nearestPlayer = some p →
        (resolveOrigin env).2 = some p.position.floored)
    ∧ (∀ origin, (resolveOrigin env).2 = some origin →
      placements (executePlan env instrs) = plannedPlacements origin instrs) := by
  refine ⟨?_, ?_, ?_⟩
  · intro h
    unfold resolveOrigin
    rw [h]
    simp
  · intro h p hp
    unfold resolveOrigin
    rw [h, hp]
    simp
  · intro origin h
    exact placements_executePlan env instrs origin h

theorem claim_C7_witness :
    (resolveOrigin envExplicit).2 = some ⟨10, 64, 10⟩
    ∧ (resolveOrigin envPartialArgs).2 = some ⟨3, 70, -2⟩ := by
  constructor
  · have h := (claim_C7_origin_strategies envExplicit []).1 (by decide)
    rw [h]
    decide
  · have h := (claim_C7_origin_strategies envPartialArgs []).2.1 (by decide)
      ⟨"alex", ⟨7 / 2, 70, -3 / 2⟩⟩ rfl
    rw [h]
    norm_num [Vec3.floored]

/-- C8: the placement-command sequence is determined solely by the plan and
the origin — two runs whose origin resolution agrees issue identical
placement sequences whatever the world state (the agent-position oracle,
`parseFloat`, the player query), so re-running against an already-built
world re-issues the same commands; and every placement command carries the
`replace` modifier, making re-issue safe. -/
theorem claim_C8_idempotent_replay (env1 env2 : Env)
    (instrs : List Instruction) (origin : Vec3)
    (h1 : (resolveOrigin env1).2 = some origin)
    (h2 : (resolveOrigin env2).2 = some origin) :
    placements (executePlan env1 instrs) = placements (executePlan env2 instrs)
    ∧ placements (executePlan env1 instrs) = plannedPlacements origin instrs
    ∧ ∀ e ∈ placements (executePlan env1 instrs),
        ∃ p b, e = Event.setblock p b "replace" := by
  have k1 := placements_executePlan env1 instrs origin h1
  have k2 := placements_executePlan env2 instrs origin h2
  refine ⟨k1.trans k2.symm, k1, ?_⟩
  rw [k1]
  exact plannedPlacements_replace origin instrs

theorem claim_C8_witness :
    placements (executePlan envExplicit planMixed)
      = placements (executePlan envExplicitFar planMixed) :=
  (claim_C8_idempotent_replay envExplicit envExplicitFar planMixed
    ⟨10, 64, 10⟩ (by decide) (by decide)).1

/-- C9: the explicit-origin strategy is taken only when all three coordinate
arguments are truthy; with only one or two supplied, the run is identical
to one with no coordinate arguments at all — the partial values are
silently ignored, the derived strategy is used, and no extra diagnostic is
emitted. -/
theorem claim_C9_partial_args_ignored (env : Env) (instrs : List Instruction)
    (h : (truthy env.argX && truthy env.argY && truthy env.argZ) = false) :
    resolveOrigin env
      = resolveOrigin { env with argX := none, argY := none, argZ := none }
    ∧ executePlan env instrs
      = executePlan { env with argX := none, argY := none, argZ := none }
        instrs := by
  have hres : resolveOrigin env
      = resolveOrigin { env with argX := none, argY := none, argZ := none } := by
    unfold resolveOrigin
    rw [h]
    rfl
  refine ⟨hres, ?_⟩
  unfold executePlan
  rw [hres]

theorem claim_C9_witness :
    resolveOrigin envPartialArgs
      = resolveOrigin
          { envPartialArgs with argX := none, argY := none, argZ := none } :=
  (claim_C9_partial_args_ignored envPartialArgs [] (by decide)).1

/-- C10: explicit origin coordinates are used exactly as parsed, with no
flooring — every placement command's target is
`parseFloat args + offset` verbatim, fractional parts included (flooring
happens only on the derived-origin path). -/
theorem claim_C10_no_flooring (env : Env) (instrs : List Instruction)
    (h : (truthy env.argX && truthy env.argY && truthy env.argZ) = true) :
    placements (executePlan env instrs)
      = plannedPlacements
          ⟨env.parseFloat (env.argX.getD ""), env.parseFloat (env.argY.getD ""),
           env.parseFloat (env.argZ.getD "")⟩ instrs := by
  apply placements_executePlan
  unfold resolveOrigin
  rw [h]
  simp

theorem claim_C10_witness :
    placements (executePlan envFrac [⟨0, 0, 0, "setblock", "stone"⟩])
      = [Event.setblock ⟨21 / 2, 64, 1 / 4⟩ "stone" "replace"] := by
  rw [claim_C10_no_flooring envFrac [⟨0, 0, 0, "setblock", "stone"⟩]
    (by decide)]
  norm_num +decide [plannedPlacements, plannedPlacement, recognizedAction,
    Vec3.offset, envFrac, List.filterMap_cons]

end Bananacraft
